import Mathlib

/-!
Shallow embedding of `src/castle_secrets.py` (castlekit/castle).

The source defines `CastleOpenClawDetector`, a `RegexBasedDetector` whose
`denylist` holds three compiled regular expressions:

  1. `rew_[a-f0-9]{32,}`
  2. `OPENCLAW_GATEWAY_TOKEN\s*=\s*["']?(?!\$\{)[^\s"']{8,}`
  3. `wss?://(?!localhost)(?!127\.0\.0\.1)(?!0\.0\.0\.0)[a-zA-Z0-9][\w.\-:]+`

Each concrete regex is hand-compiled to a deterministic match function
`List Char → Option Nat` that, given the suffix of the text starting at a
candidate position, returns the length of the match Python's `re` engine
produces at that position (leftmost position is chosen by the driver
`findIter`, greediness and the regex engine's backtracking are resolved
inside each function).  `findIter` mirrors `re.finditer`: it scans
positions left to right and resumes after the end of each match, so
matches of one rule never overlap.  Character classes `\s` and `\w` are
modelled at their ASCII subsets (the texts the detector targets are ASCII).
-/

namespace Castle

/-- The double-quote character, written via its code point. -/
def dq : Char := Char.ofNat 34

/-- The single-quote character, written via its code point. -/
def sq : Char := Char.ofNat 39

/-- Python regex class `\s` (ASCII subset): space, tab, newline, carriage
return, vertical tab, form feed. -/
def pySpace (c : Char) : Bool :=
  c == ' ' || c == '\t' || c == '\n' || c == '\r' ||
    c == Char.ofNat 11 || c == Char.ofNat 12

/-- The class `[a-f0-9]` of rule 1: lowercase hex digits. -/
def isLowerHex (c : Char) : Bool :=
  ('a' ≤ c && c ≤ 'f') || ('0' ≤ c && c ≤ '9')

/-- The class `[a-zA-Z0-9]` of rule 3. -/
def isAsciiAlnum (c : Char) : Bool :=
  ('a' ≤ c && c ≤ 'z') || ('A' ≤ c && c ≤ 'Z') || ('0' ≤ c && c ≤ '9')

/-- Python regex class `\w` (ASCII subset): `[a-zA-Z0-9_]`. -/
def isWordChar (c : Char) : Bool :=
  isAsciiAlnum c || c == '_'

/-- The class `[\w.\-:]` of rule 3 (host characters after the first). -/
def isHostChar (c : Char) : Bool :=
  isWordChar c || c == '.' || c == '-' || c == ':'

/-- The class `[^\s"']` of rule 2: value characters (no whitespace, no
double or single quote). -/
def isValueChar (c : Char) : Bool :=
  !(pySpace c) && c != dq && c != sq

/-- Rule 1, `rew_[a-f0-9]{32,}`, matched at the start of suffix `s`:
the literal `rew_`, then a greedy maximal run of lowercase hex digits,
accepted when the run has at least 32 characters.  Returns the length of
the match. -/
def matchRewAt (s : List Char) : Option Nat :=
  if ("rew_".data).isPrefixOf s then
    let run := ((s.drop 4).takeWhile isLowerHex).length
    if 32 ≤ run then some (4 + run) else none
  else none

/-- The tail of rule 2 after the optional quote:
`(?!\$\{)[^\s"']{8,}` — a negative lookahead refusing values that start
with the placeholder marker `$\x7b`, then a greedy run of at least 8
value characters.  Returns the length of the value run. -/
def gatewayValue (r : List Char) : Option Nat :=
  if (['$', Char.ofNat 123]).isPrefixOf r then none
  else
    let v := (r.takeWhile isValueChar).length
    if 8 ≤ v then some v else none

/-- Rule 2, `OPENCLAW_GATEWAY_TOKEN\s*=\s*["']?(?!\$\{)[^\s"']{8,}`,
matched at the start of suffix `s`.  The optional quote `["']?` is greedy:
when the next character is a quote the engine first tries consuming it and
falls back to the empty alternative only if the rest of the pattern then
fails — exactly the behaviour of Python's backtracking. -/
def matchGatewayAt (s : List Char) : Option Nat :=
  if ("OPENCLAW_GATEWAY_TOKEN".data).isPrefixOf s then
    let t1 := s.drop 22
    let a := (t1.takeWhile pySpace).length
    match t1.drop a with
    | '=' :: t3 =>
      let b := (t3.takeWhile pySpace).length
      let t4 := t3.drop b
      let quoted : Option Nat :=
        match t4 with
        | c :: t5 =>
          if c == dq || c == sq then (gatewayValue t5).map (· + 1) else none
        | [] => none
      match quoted with
      | some v => some (22 + a + 1 + b + v)
      | none =>
        match gatewayValue t4 with
        | some v => some (22 + a + 1 + b + v)
        | none => none
    | _ => none
  else none

/-- The host part of rule 3 after the scheme:
`(?!localhost)(?!127\.0\.0\.1)(?!0\.0\.0\.0)[a-zA-Z0-9][\w.\-:]+` —
three negative lookaheads refusing hosts that START with a loopback
literal, then one alphanumeric character and a greedy run of at least one
host character.  Returns the length matched. -/
def wsHost (r : List Char) : Option Nat :=
  if ("localhost".data).isPrefixOf r then none
  else if ("127.0.0.1".data).isPrefixOf r then none
  else if ("0.0.0.0".data).isPrefixOf r then none
  else
    match r with
    | c :: t =>
      if isAsciiAlnum c then
        let run := (t.takeWhile isHostChar).length
        if 1 ≤ run then some (1 + run) else none
      else none
    | [] => none

/-- Matches `://` followed by the host part of rule 3. -/
def wsAfterScheme (r : List Char) : Option Nat :=
  if ("://".data).isPrefixOf r then (wsHost (r.drop 3)).map (· + 3) else none

/-- Rule 3, `wss?://(?!localhost)(?!127\.0\.0\.1)(?!0\.0\.0\.0)[a-zA-Z0-9][\w.\-:]+`,
matched at the start of suffix `s`.  The optional `s?` is greedy with
backtracking: after the literal `ws`, the engine first tries to consume a
further `s` and match `://…` after it, and falls back to matching `://…`
directly when that fails. -/
def matchWsAt (s : List Char) : Option Nat :=
  if ("ws".data).isPrefixOf s then
    let t := s.drop 2
    let withS : Option Nat :=
      match t with
      | 's' :: t2 => (wsAfterScheme t2).map (· + 1)
      | _ => none
    match withS with
    | some v => some (2 + v)
    | none => (wsAfterScheme t).map (2 + ·)
  else none

/-- Fuelled worker for the `re.finditer` driver: scan positions left to
right; at each position try the match function; on a match of length `L`
record the span `(pos, L)` and resume at the end of the match (after an
empty match, resume one position further, as Python does); otherwise
advance one position.  Spans are `(start, length)` pairs in absolute
offsets.  Every step consumes at least one character of the suffix, so
fuel equal to the suffix length always suffices. -/
def findIterF (m : List Char → Option Nat) :
    Nat → List Char → Nat → List (Nat × Nat)
  | 0, _, _ => []
  | fuel + 1, s, pos =>
    match s with
    | [] => []
    | _ :: rest =>
      match m s with
      | some L =>
        if L = 0 then (pos, 0) :: findIterF m fuel rest (pos + 1)
        else (pos, L) :: findIterF m fuel (rest.drop (L - 1)) (pos + L)
      | none => findIterF m fuel rest (pos + 1)

/-- Driver mirroring `re.finditer` for one rule over a text. -/
def findIter (m : List Char → Option Nat) (s : List Char) (pos : Nat) :
    List (Nat × Nat) :=
  findIterF m s.length s pos

/-- One reported secret: the index of the rule in `denylist` that fired
and the span `(start, len)` of the matched substring. -/
structure Finding where
  rule : Nat
  start : Nat
  len : Nat
deriving DecidableEq, Repr

/-- The matched substring of a finding, read back from the scanned text. -/
def matchedText (text : List Char) (f : Finding) : List Char :=
  (text.drop f.start).take f.len

/-- The `denylist` of `CastleOpenClawDetector`: the three compiled rules,
in source order. -/
def denylist : List (List Char → Option Nat) :=
  [matchRewAt, matchGatewayAt, matchWsAt]

/-- Run every rule of a denylist over the text (each via `findIter`, from
position 0), tagging findings with the rule's index, in rule order. -/
def runDenylist (rules : List (List Char → Option Nat)) (text : List Char) :
    List Finding :=
  (rules.enum.map (fun p => (findIter p.2 text 0).map
    (fun q => Finding.mk p.1 q.1 q.2))).flatten

/-- Scan a text with the detector's denylist. -/
def scanAll (text : List Char) : List Finding :=
  runDenylist denylist text

/-! ### Pattern source strings and a regex well-formedness checker

The three regex source strings of the `denylist`, verbatim from
`src/castle_secrets.py`, and a syntactic well-formedness checker for the
regex dialect they use, modelling the success of `re.compile` at module
definition time: balanced groups, terminated non-empty character classes,
quantifiers (`*`, `+`, `?`, bounded repeats) attached to a preceding
atom, complete escapes, and negative-lookahead group openers. -/

/-- The opening brace character. -/
def obr : Char := Char.ofNat 123

/-- The closing brace character. -/
def cbr : Char := Char.ofNat 125

/-- Source of rule 1 of the `denylist`. -/
def rewSrc : List Char := "rew_[a-f0-9]\x7b32,\x7d".data

/-- Source of rule 2 of the `denylist` (quote characters spliced in by
code point). -/
def gatewaySrc : List Char :=
  "OPENCLAW_GATEWAY_TOKEN\\s*=\\s*[".data ++ [dq, sq] ++
    "]?(?!\\$\\\x7b)[^\\s".data ++ [dq, sq] ++ "]\x7b8,\x7d".data

/-- Source of rule 3 of the `denylist`. -/
def wsSrc : List Char :=
  "wss?://(?!localhost)(?!127\\.0\\.0\\.1)(?!0\\.0\\.0\\.0)[a-zA-Z0-9][\\w.\\-:]+".data

/-- Parse the inside of a bounded repeat after its opening brace:
digits, an optional comma with further digits, and the closing brace.
Returns the remainder of the pattern on success. -/
def braceTail (r : List Char) : Option (List Char) :=
  let ds := r.takeWhile Char.isDigit
  if ds.isEmpty then none
  else
    match r.drop ds.length with
    | ',' :: rest =>
      let ds2 := rest.takeWhile Char.isDigit
      (match rest.drop ds2.length with
       | c2 :: r3 => if c2 == cbr then some r3 else none
       | [] => none)
    | c2 :: r3 => if c2 == cbr then some r3 else none
    | [] => none

/-- One step of the regex well-formedness scan (fuelled; every step
consumes at least one pattern character, so fuel `length + 1` always
suffices).  `d` is the open-group depth, `mode` is `0` outside a
character class, `1` just after `[`, `2` inside a class with at least one
member seen, and `q` records whether a quantifier may attach (an atom was
just completed). -/
def regexStepF : Nat → List Char → Nat → Nat → Bool → Bool
  | 0, r, d, mode, _ => r.isEmpty && d == 0 && mode == 0
  | _ + 1, [], d, mode, _ => d == 0 && mode == 0
  | fuel + 1, c :: r, d, mode, q =>
    if mode == 1 || mode == 2 then
      if c == '\\' then
        match r with
        | [] => false
        | _ :: r2 => regexStepF fuel r2 d 2 q
      else if c == ']' && mode == 2 then regexStepF fuel r d 0 true
      else regexStepF fuel r d 2 q
    else
      if c == '\\' then
        match r with
        | [] => false
        | _ :: r2 => regexStepF fuel r2 d 0 true
      else if c == '[' then regexStepF fuel r d 1 q
      else if c == '(' then
        match r with
        | '?' :: '!' :: r2 => regexStepF fuel r2 (d + 1) 0 false
        | '?' :: _ => false
        | _ => regexStepF fuel r (d + 1) 0 false
      else if c == ')' then
        if d == 0 then false else regexStepF fuel r (d - 1) 0 true
      else if c == '*' || c == '+' || c == '?' then
        q && regexStepF fuel r d 0 false
      else if c == obr then
        q && (match braceTail r with
              | some r2 => regexStepF fuel r2 d 0 false
              | none => false)
      else regexStepF fuel r d 0 true

/-- A pattern compiles (well-formed in the dialect the denylist uses). -/
def regexOk (p : List Char) : Bool := regexStepF (p.length + 1) p 0 0 false

/-- A match function never reports a match longer than the suffix it was
given. -/
def MatcherBounded (m : List Char → Option Nat) : Prop :=
  ∀ s L, m s = some L → L ≤ s.length

/-- Modelled from the spec for comparison with rule 3 (the amended
reading): the text after the `ws://` or `wss://` scheme is accepted when
it does not BEGIN with one of the loopback literals `localhost`,
`127.0.0.1`, `0.0.0.0`, starts with an alphanumeric character, and has at
least one further host character. -/
def hostAcceptedSpec (rest : List Char) : Prop :=
  ¬ ("localhost".data <+: rest) ∧ ¬ ("127.0.0.1".data <+: rest) ∧
    ¬ ("0.0.0.0".data <+: rest) ∧
    (match rest with
     | c :: d :: _ => isAsciiAlnum c = true ∧ isHostChar d = true
     | _ => False)

/-! ### General lemmas about the finditer driver -/

theorem findIterF_start_le (m : List Char → Option Nat) :
    ∀ (fuel : Nat) (s : List Char) (pos : Nat) (q : Nat × Nat),
      q ∈ findIterF m fuel s pos → pos ≤ q.1 := by
  intro fuel
  induction fuel with
  | zero => intro s pos q h; simp [findIterF] at h
  | succ n ih =>
    intro s pos q h
    cases s with
    | nil => simp [findIterF] at h
    | cons c rest =>
      rw [findIterF] at h
      split at h
      · split at h
        · rcases List.mem_cons.mp h with h2 | h2
          · simp [h2]
          · exact le_trans (Nat.le_succ pos) (ih _ _ _ h2)
        · rcases List.mem_cons.mp h with h2 | h2
          · simp [h2]
          · exact le_trans (Nat.le_add_right pos _) (ih _ _ _ h2)
      · exact le_trans (Nat.le_succ pos) (ih _ _ _ h)

theorem findIterF_pairwise (m : List Char → Option Nat) :
    ∀ (fuel : Nat) (s : List Char) (pos : Nat),
      List.Pairwise (fun a b : Nat × Nat => a.1 + a.2 ≤ b.1)
        (findIterF m fuel s pos) := by
  intro fuel
  induction fuel with
  | zero => intro s pos; simp [findIterF]
  | succ n ih =>
    intro s pos
    cases s with
    | nil => simp [findIterF]
    | cons c rest =>
      rw [findIterF]
      split
      · split
        · refine List.Pairwise.cons (fun b hb => ?_) (ih _ _)
          have := findIterF_start_le m n rest (pos + 1) b hb
          omega
        · refine List.Pairwise.cons (fun b hb => ?_) (ih _ _)
          have := findIterF_start_le m n _ _ b hb
          omega
      · exact ih _ _

theorem findIterF_end_le (m : List Char → Option Nat)
    (hm : MatcherBounded m) :
    ∀ (fuel : Nat) (s : List Char) (pos : Nat) (q : Nat × Nat),
      q ∈ findIterF m fuel s pos → q.1 + q.2 ≤ pos + s.length := by
  intro fuel
  induction fuel with
  | zero => intro s pos q h; simp [findIterF] at h
  | succ n ih =>
    intro s pos q h
    cases s with
    | nil => simp [findIterF] at h
    | cons c rest =>
      rw [findIterF] at h
      split at h
      · rename_i L hmm
        have hLb : L ≤ (c :: rest).length := hm _ _ hmm
        simp only [List.length_cons] at hLb
        split at h
        · rcases List.mem_cons.mp h with h2 | h2
          · simp [h2]
          · have := ih rest (pos + 1) q h2
            simp only [List.length_cons]
            omega
        · rcases List.mem_cons.mp h with h2 | h2
          · simp only [h2, List.length_cons]
            omega
          · have := ih (rest.drop (L - 1)) (pos + L) q h2
            simp only [List.length_drop, List.length_cons] at *
            omega
      · have := ih rest (pos + 1) q h
        simp only [List.length_cons]
        omega

/-! ### The three rules never match past the end of their suffix -/

theorem matchRewAt_bounded : MatcherBounded matchRewAt := by
  intro s L h
  simp only [matchRewAt] at h
  split at h
  · rename_i hp
    split at h
    · rename_i hrun
      simp only [Option.some.injEq] at h
      have h4 : ("rew_".data).length ≤ s.length :=
        (List.isPrefixOf_iff_prefix.mp hp).length_le
      have hr : ((s.drop 4).takeWhile isLowerHex).length ≤ (s.drop 4).length :=
        (List.takeWhile_prefix _).length_le
      simp only [List.length_drop] at hr
      simp only [String.length_data] at h4
      omega
    · exact absurd h (by simp)
  · exact absurd h (by simp)

theorem gatewayValue_bounded (r : List Char) (v : Nat)
    (h : gatewayValue r = some v) : v ≤ r.length := by
  simp only [gatewayValue] at h
  split at h
  · exact absurd h (by simp)
  · split at h
    · simp only [Option.some.injEq] at h
      have := (List.takeWhile_prefix (l := r) isValueChar).length_le
      omega
    · exact absurd h (by simp)

theorem matchGatewayAt_bounded : MatcherBounded matchGatewayAt := by
  intro s L h
  simp only [matchGatewayAt] at h
  split at h
  · rename_i hp
    have h22 : ("OPENCLAW_GATEWAY_TOKEN".data).length ≤ s.length :=
      (List.isPrefixOf_iff_prefix.mp hp).length_le
    simp only [String.length_data] at h22
    have ha : ((s.drop 22).takeWhile pySpace).length ≤ (s.drop 22).length :=
      (List.takeWhile_prefix _).length_le
    simp only [List.length_drop] at ha
    split at h
    · rename_i t3 heq
      have ht3 : ((s.drop 22).drop
          ((s.drop 22).takeWhile pySpace).length).length = t3.length + 1 := by
        rw [heq]; simp
      simp only [List.length_drop] at ht3
      have hb : (t3.takeWhile pySpace).length ≤ t3.length :=
        (List.takeWhile_prefix _).length_le
      split at h
      · rename_i v hq
        split at hq
        · rename_i c t5 heq5
          have ht5 : (t3.drop (t3.takeWhile pySpace).length).length =
              t5.length + 1 := by
            rw [heq5]; simp
          simp only [List.length_drop] at ht5
          split at hq
          · simp only [Option.map_eq_some'] at hq
            obtain ⟨w, hw, hwv⟩ := hq
            have := gatewayValue_bounded _ _ hw
            simp only [Option.some.injEq] at h
            omega
          · exact absurd hq (by simp)
        · exact absurd hq (by simp)
      · split at h
        · rename_i w hw
          have := gatewayValue_bounded _ _ hw
          have h4 : (t3.drop (t3.takeWhile pySpace).length).length =
              t3.length - (t3.takeWhile pySpace).length := by simp
          simp only [Option.some.injEq] at h
          omega
        · exact absurd h (by simp)
    · exact absurd h (by simp)
  · exact absurd h (by simp)

theorem wsHost_bounded (r : List Char) (v : Nat) (h : wsHost r = some v) :
    v ≤ r.length := by
  cases r with
  | nil => simp [wsHost] at h
  | cons c t =>
    simp only [wsHost] at h
    split at h
    · exact absurd h (by simp)
    · split at h
      · exact absurd h (by simp)
      · split at h
        · exact absurd h (by simp)
        · split at h
          · split at h
            · simp only [Option.some.injEq] at h
              have : (t.takeWhile isHostChar).length ≤ t.length :=
                (List.takeWhile_prefix _).length_le
              simp only [List.length_cons]
              omega
            · exact absurd h (by simp)
          · exact absurd h (by simp)

theorem wsAfterScheme_bounded (r : List Char) (v : Nat)
    (h : wsAfterScheme r = some v) : v ≤ r.length := by
  simp only [wsAfterScheme] at h
  split at h
  · rename_i hp
    have h3 : ("://".data).length ≤ r.length :=
      (List.isPrefixOf_iff_prefix.mp hp).length_le
    simp at h3
    simp only [Option.map_eq_some'] at h
    obtain ⟨w, hw, hwv⟩ := h
    have := wsHost_bounded _ _ hw
    simp only [List.length_drop] at this
    omega
  · exact absurd h (by simp)

theorem matchWsAt_bounded : MatcherBounded matchWsAt := by
  intro s L h
  simp only [matchWsAt] at h
  split at h
  · rename_i hp
    have h2 : ("ws".data).length ≤ s.length :=
      (List.isPrefixOf_iff_prefix.mp hp).length_le
    simp at h2
    split at h
    · rename_i v hv
      split at hv
      · rename_i t2 heq2
        have ht2 : (s.drop 2).length = t2.length + 1 := by rw [heq2]; simp
        simp only [List.length_drop] at ht2
        simp only [Option.map_eq_some'] at hv
        obtain ⟨w, hw, hwv⟩ := hv
        have := wsAfterScheme_bounded _ _ hw
        simp only [Option.some.injEq] at h
        omega
      · exact absurd hv (by simp)
    · simp only [Option.map_eq_some'] at h
      obtain ⟨w, hw, hwv⟩ := h
      have := wsAfterScheme_bounded _ _ hw
      simp only [List.length_drop] at this
      omega
  · exact absurd h (by simp)

/-- Every rule of the denylist is bounded. -/
theorem denylist_bounded :
    ∀ m ∈ denylist, MatcherBounded m := by
  intro m hm
  simp only [denylist, List.mem_cons, List.not_mem_nil, or_false] at hm
  rcases hm with rfl | rfl | rfl
  · exact matchRewAt_bounded
  · exact matchGatewayAt_bounded
  · exact matchWsAt_bounded

/-! ### Reduction of rule 3 after a concrete scheme prefix -/

theorem matchWsAt_wss (rest : List Char) :
    matchWsAt ("wss://".data ++ rest) = (wsHost rest).map (fun v => 6 + v) := by
  cases hw : wsHost rest with
  | none => simp [matchWsAt, wsAfterScheme, hw, List.isPrefixOf]
  | some v =>
    simp [matchWsAt, wsAfterScheme, hw, List.isPrefixOf]
    omega

theorem matchWsAt_ws (rest : List Char) :
    matchWsAt ("ws://".data ++ rest) = (wsHost rest).map (fun v => 5 + v) := by
  cases hw : wsHost rest with
  | none => simp [matchWsAt, wsAfterScheme, hw, List.isPrefixOf]
  | some v =>
    simp [matchWsAt, wsAfterScheme, hw, List.isPrefixOf]
    omega

theorem wsHost_isSome_iff (rest : List Char) :
    (wsHost rest).isSome = true ↔ hostAcceptedSpec rest := by
  cases rest with
  | nil => simp [wsHost, hostAcceptedSpec]
  | cons c t =>
    cases t with
    | nil => simp [wsHost, hostAcceptedSpec, List.isPrefixOf, List.takeWhile]
    | cons d t2 =>
      by_cases h1 : ("localhost".data <+: (c :: d :: t2))
      · simp [wsHost, hostAcceptedSpec, List.isPrefixOf_iff_prefix, h1]
      · by_cases h2 : ("127.0.0.1".data <+: (c :: d :: t2))
        · simp [wsHost, hostAcceptedSpec, List.isPrefixOf_iff_prefix, h1, h2]
        · by_cases h3 : ("0.0.0.0".data <+: (c :: d :: t2))
          · simp [wsHost, hostAcceptedSpec, List.isPrefixOf_iff_prefix,
              h1, h2, h3]
          · by_cases hc : isAsciiAlnum c <;> by_cases hd : isHostChar d <;>
              simp [wsHost, hostAcceptedSpec, List.isPrefixOf_iff_prefix,
                h1, h2, h3, hc, hd, List.takeWhile]

/-! ### The claims -/

/-- C1: scanning text containing `OPENCLAW_GATEWAY_TOKEN=$\x7bSOME_VAR\x7d`
yields no Finding (the placeholder value suppresses the match), while
scanning `OPENCLAW_GATEWAY_TOKEN="abcdef1234"` yields exactly one Finding,
produced by the gateway-token rule (index 1 of the denylist) and by no
other rule. -/
theorem claim_C1 :
    scanAll ("OPENCLAW_GATEWAY_TOKEN=$\x7bSOME_VAR\x7d".data) = [] ∧
    scanAll ("OPENCLAW_GATEWAY_TOKEN=\"abcdef1234\"".data) =
      [Finding.mk 1 0 34] ∧
    denylist[1]? = some matchGatewayAt :=
  ⟨by decide, by decide, rfl⟩

/-- C2: text consisting of `rew_` followed by exactly 32 lowercase hex
characters yields one Finding from the reward-token rule (index 0 of the
denylist), and the same prefix followed by only 31 lowercase hex
characters yields no Finding: the `32+` quantifier is an exact lower
boundary. -/
theorem claim_C2 :
    scanAll ("rew_0123456789abcdef0123456789abcdef".data) =
      [Finding.mk 0 0 36] ∧
    scanAll ("rew_0123456789abcdef0123456789abcde".data) = [] ∧
    denylist[0]? = some matchRewAt :=
  ⟨by decide, by decide, rfl⟩

/-- C3: scanning each of `wss://localhost:8080/path`, `ws://127.0.0.1/x`
and `wss://0.0.0.0/y` yields no Finding, while scanning
`wss://gateway.example.com/path` yields exactly one Finding from the
WebSocket-URL rule (index 2 of the denylist). -/
theorem claim_C3 :
    scanAll ("wss://localhost:8080/path".data) = [] ∧
    scanAll ("ws://127.0.0.1/x".data) = [] ∧
    scanAll ("wss://0.0.0.0/y".data) = [] ∧
    scanAll ("wss://gateway.example.com/path".data) = [Finding.mk 2 0 25] ∧
    denylist[2]? = some matchWsAt :=
  ⟨by decide, by decide, by decide, by decide, rfl⟩

/-- C4 (counterexample to the claim as stated): the host
`localhost.example.com` is not equal to any of the three loopback
literals, so by the claim the URL should produce a Finding, yet the scan
reports none — the negative lookaheads suppress every host that merely
BEGINS with a loopback literal. -/
theorem claim_C4_counterexample :
    ("localhost.example.com" ≠ "localhost" ∧
     "localhost.example.com" ≠ "127.0.0.1" ∧
     "localhost.example.com" ≠ "0.0.0.0") ∧
    scanAll ("wss://localhost.example.com/path".data) = [] :=
  ⟨by decide, by decide⟩

/-- C4 (amended): for every text after a `ws://` or `wss://` scheme, the
WebSocket-URL rule matches at the scheme if and only if the text after
the scheme does not BEGIN with one of the three loopback literals
`localhost`, `127.0.0.1`, `0.0.0.0`, starts with an alphanumeric
character, and continues with at least one further host character. -/
theorem claim_C4 (rest : List Char) :
    ((matchWsAt ("ws://".data ++ rest)).isSome = true ↔
      hostAcceptedSpec rest) ∧
    ((matchWsAt ("wss://".data ++ rest)).isSome = true ↔
      hostAcceptedSpec rest) := by
  constructor
  · rw [matchWsAt_ws, ← wsHost_isSome_iff rest]
    cases wsHost rest <;> simp
  · rw [matchWsAt_wss, ← wsHost_isSome_iff rest]
    cases wsHost rest <;> simp

/-- C4 witness: the amended statement instantiated at a concrete host. -/
theorem claim_C4_witness :
    ((matchWsAt ("ws://".data ++ "gateway.example.com/path".data)).isSome =
        true ↔ hostAcceptedSpec ("gateway.example.com/path".data)) ∧
    ((matchWsAt ("wss://".data ++ "gateway.example.com/path".data)).isSome =
        true ↔ hostAcceptedSpec ("gateway.example.com/path".data)) :=
  claim_C4 ("gateway.example.com/path".data)

/-- C5: for every input text and every one of the three denylist rules,
the candidate spans the rule reports are pairwise non-overlapping (each
span ends at or before the start of every later span); in particular, for
text of `rew_` followed by 40 lowercase hex characters, the reward-token
rule reports the single full 44-character span, never a span covering
only the first 32 hex characters. -/
theorem claim_C5 :
    (∀ (text : List Char) (m : List Char → Option Nat), m ∈ denylist →
        List.Pairwise (fun a b : Nat × Nat => a.1 + a.2 ≤ b.1)
          (findIter m text 0)) ∧
    findIter matchRewAt
      ("rew_0123456789abcdef0123456789abcdef0123abcd".data) 0 = [(0, 44)] :=
  ⟨fun text m _ => findIterF_pairwise m text.length text 0, by decide⟩

/-- C5 witness: the non-overlap statement applied to the reward-token
rule, a member of the denylist, on a concrete text with two tokens. -/
theorem claim_C5_witness :
    List.Pairwise (fun a b : Nat × Nat => a.1 + a.2 ≤ b.1)
      (findIter matchRewAt
        ("xxrew_aaaaaaaaaaaaaaaaaaaaaaaaaaaaaaaarew_bbbbbbbbbbbbbbbbbbbbbbbbbbbbbbbb".data)
        0) :=
  claim_C5.1 _ matchRewAt (by simp [denylist])

/-- C6: scanning is deterministic — for every fixed input text, two runs
of the denylist matching over that text return identical ordered Finding
sequences. -/
theorem claim_C6 (t1 t2 : List Char) (h : t1 = t2) :
    scanAll t1 = scanAll t2 := by
  rw [h]

/-- C6 witness: determinism instantiated on a concrete text. -/
theorem claim_C6_witness :
    ("wss://gateway.example.com/path".data =
      "wss://gateway.example.com/path".data) ∧
    scanAll ("wss://gateway.example.com/path".data) =
      scanAll ("wss://gateway.example.com/path".data) :=
  ⟨rfl, claim_C6 _ _ rfl⟩

/-- C7: for every input text whatsoever, scanning with the denylist is a
total function of the text: it returns a result, and every Finding it
returns lies within the bounds of the unmodified input, its matched
substring read back from the input having exactly the reported length. -/
theorem claim_C7 (text : List Char) :
    ∃ fs : List Finding, scanAll text = fs ∧
      ∀ f ∈ fs, f.start + f.len ≤ text.length ∧
        (matchedText text f).length = f.len := by
  refine ⟨scanAll text, rfl, ?_⟩
  intro f hf
  simp only [scanAll, runDenylist, List.mem_flatten, List.mem_map] at hf
  obtain ⟨l, ⟨p, hp, rfl⟩, hf⟩ := hf
  simp only [List.mem_map] at hf
  obtain ⟨q, hq, rfl⟩ := hf
  have henum : denylist.enum =
      [(0, matchRewAt), (1, matchGatewayAt), (2, matchWsAt)] := rfl
  rw [henum] at hp
  simp only [List.mem_cons, List.not_mem_nil, or_false] at hp
  have hmem : p.2 ∈ denylist := by
    rcases hp with rfl | rfl | rfl <;> simp [denylist]
  have hb := denylist_bounded p.2 hmem
  simp only [findIter] at hq
  have hend := findIterF_end_le p.2 hb text.length text 0 q hq
  constructor
  · simpa using hend
  · simp only [matchedText, List.length_take, List.length_drop]
    omega

/-- C7 witness: totality and in-bounds results on a concrete text. -/
theorem claim_C7_witness :
    ∃ fs : List Finding,
      scanAll ("OPENCLAW_GATEWAY_TOKEN=\"abcdef1234\"".data) = fs ∧
      ∀ f ∈ fs,
        f.start + f.len ≤ ("OPENCLAW_GATEWAY_TOKEN=\"abcdef1234\"".data).length ∧
        (matchedText ("OPENCLAW_GATEWAY_TOKEN=\"abcdef1234\"".data) f).length =
          f.len :=
  claim_C7 _

/-- C8: the three denylist pattern sources (verbatim from the module
definition) are well-formed in the regex dialect they use — the checker
modelling `re.compile` accepts all three — and scanning is defined purely
by running the already-compiled denylist: no pattern processing occurs at
scan time. -/
theorem claim_C8 :
    (regexOk rewSrc = true ∧ regexOk gatewaySrc = true ∧
      regexOk wsSrc = true) ∧
    denylist.length = 3 ∧
    ∀ text : List Char, scanAll text = runDenylist denylist text :=
  ⟨⟨by decide, by decide, by decide⟩, rfl, fun _ => rfl⟩

/-- C9: the placeholder exclusion of the gateway-token rule suppresses
only values beginning with the two-character marker `$\x7b`: the concrete
assignment `OPENCLAW_GATEWAY_TOKEN=$GATEWAY_SECRET1` yields a Finding
even though it is an environment-variable reference, and in general, for
a value starting with `$` followed by any character other than an opening
brace, the lookahead never suppresses — acceptance is decided by the
length of the value run alone. -/
theorem claim_C9 :
    scanAll ("OPENCLAW_GATEWAY_TOKEN=$GATEWAY_SECRET1".data) =
      [Finding.mk 1 0 39] ∧
    ∀ (c : Char) (r : List Char), c ≠ obr →
      gatewayValue ('$' :: c :: r) =
        (if 8 ≤ (('$' :: c :: r).takeWhile isValueChar).length
         then some (('$' :: c :: r).takeWhile isValueChar).length
         else none) := by
  constructor
  · decide
  · intro c r hc
    have hpre : (['$', Char.ofNat 123]).isPrefixOf ('$' :: c :: r) = false := by
      simp [List.isPrefixOf]
      exact fun h => hc h.symm
    simp [gatewayValue, hpre]

/-- C9 witness: the general lookahead statement applied at the concrete
value `$GATEWAY_SECRET1`. -/
theorem claim_C9_witness :
    ('G' : Char) ≠ obr ∧
    gatewayValue ('$' :: 'G' :: "ATEWAY_SECRET1".data) =
      (if 8 ≤ (('$' :: 'G' :: "ATEWAY_SECRET1".data).takeWhile
          isValueChar).length
       then some (('$' :: 'G' :: "ATEWAY_SECRET1".data).takeWhile
          isValueChar).length
       else none) :=
  ⟨by decide, claim_C9.2 'G' _ (by decide)⟩

/-- C10: all three rules match case-sensitively — text containing `REW_`
followed by 32 lowercase hex characters, `rew_` followed by 32 uppercase
hex characters, `openclaw_gateway_token="abcdef1234"`, or
`WSS://gateway.example.com/path` yields no Finding from any rule. -/
theorem claim_C10 :
    scanAll ("REW_0123456789abcdef0123456789abcdef".data) = [] ∧
    scanAll ("rew_0123456789ABCDEF0123456789ABCDEF".data) = [] ∧
    scanAll ("openclaw_gateway_token=\"abcdef1234\"".data) = [] ∧
    scanAll ("WSS://gateway.example.com/path".data) = [] :=
  ⟨by decide, by decide, by decide, by decide⟩

end Castle
